import Mathlib

/-!
# GapBuffer: a verification development of `GapBuffer.h`

The class `GapBuffer` of `GapBuffer.h` is embedded as a record of its five
data members together with one Lean function per member function.

Modelling conventions

* `size_type = size_t` is the 64-bit unsigned type, embedded in `Nat`: every `size_t` computation of the
  source is taken modulo `SIZE_MOD = 2^64` (`sz_add`, `sz_sub`, `sz_mul`,
  `sz_of_int`).  `int` is the 32-bit signed type (`to_int` is the narrowing
  conversion).
* The pointer `_elems` is modelled by the function that maps an offset to the
  `char` stored at `_elems + offset`.  Offsets at or after `_buffer_size` are
  memory outside the allocated block: the model gives them whatever value the
  function has there.  Pointer arithmetic is plain arithmetic on offsets.
* `new char[n]` returns a block with indeterminate contents; the operations
  that allocate take those contents as the argument `fresh`.
* `std::move(first, last, d_first)` of `<algorithm>` on `char*` is a
  `memmove` of `last - first` bytes (the copy of trivially copyable elements
  through pointers): every byte read is a byte of the source range as it was
  before the call, also when the two ranges overlap.
* A `throw std::string(...)` is the `Except.error` of that string.
-/

namespace GapBufferModel

/-- The element type, `using value_type = char`. -/
abbrev value_type := Char

/-- Number of values of the 64-bit `size_t`. -/
def SIZE_MOD : Nat := 18446744073709551616

/-- Largest size of an array object, `PTRDIFF_MAX = 2^63 - 1`. -/
def PTRDIFF_MAX : Nat := 9223372036854775807

/-- Addition of `size_t`. -/
def sz_add (a b : Nat) : Nat := (a + b) % SIZE_MOD

/-- Subtraction of `size_t`. -/
def sz_sub (a b : Nat) : Nat := (a + (SIZE_MOD - b % SIZE_MOD)) % SIZE_MOD

/-- Multiplication of `size_t`. -/
def sz_mul (a b : Nat) : Nat := (a * b) % SIZE_MOD

/-- Conversion of a mathematical integer to `size_t`. -/
def sz_of_int (z : Int) : Nat := (z % (SIZE_MOD : Int)).toNat

/-- Narrowing conversion to the 32-bit `int` (two's complement). -/
def to_int (z : Int) : Int := (z + 2147483648) % 4294967296 - 2147483648

deriving instance DecidableEq for Except

/-- The constant `const int kDefaultSize = 10`. -/
def kDefaultSize : Nat := 10

/-- The assignment `p[i] = v` on a block of memory. -/
def store (m : Nat → value_type) (i : Nat) (v : value_type) : Nat → value_type :=
  fun j => if j = i then v else m j

/-- The data members of `class GapBuffer`. -/
structure GapBuffer where
  _elems : Nat → value_type
  _logical_size : Nat
  _buffer_size : Nat
  _cursor_index : Nat
  _gap_size : Nat

/-- The call `std::move(first, first + n, d_first)` from offset `first` of the
block `src` to offset `d_first` of the block `dst`: slot `d_first + k` of `dst`
receives slot `first + k` of `src` for `k = 0, ..., n - 1`, and `src` is read
as it is when the call starts. -/
def std_move (src : Nat → value_type) (first : Nat) :
    Nat → (Nat → value_type) → Nat → (Nat → value_type)
  | 0, dst, _ => dst
  | n + 1, dst, d_first =>
      std_move src (first + 1) n (store dst d_first (src first)) (d_first + 1)

/-- The call `std::move(first, first + n, d_first)` inside one block `m`.  On
`char*` it is a `memmove`: the bytes are copied as if through a temporary, so
each slot `d_first + k` receives what slot `first + k` held before the call,
also when the source and destination ranges overlap. -/
def std_move_inplace (n : Nat) (m : Nat → value_type) (first d_first : Nat) :
    Nat → value_type :=
  std_move m first n m d_first

/-- The loop `for (size_t i = 0; i < count; ++i) _elems[i] = val;` of the
filling constructor, after `i` iterations still to run from index `start`. -/
def fill_loop (val : value_type) : Nat → Nat → (Nat → value_type) → (Nat → value_type)
  | 0, _, m => m
  | n + 1, start, m => fill_loop val n (start + 1) (store m start val)

namespace GapBuffer

/-- `GapBuffer::GapBuffer()`. -/
def ctor_default (fresh : Nat → value_type) : GapBuffer :=
  { _elems := fresh
    _logical_size := 0
    _buffer_size := kDefaultSize
    _cursor_index := 0
    _gap_size := kDefaultSize }

/-- `GapBuffer::GapBuffer(size_type count, const value_type& val)`. -/
def ctor_count (fresh : Nat → value_type) (count : Nat) (val : value_type) :
    GapBuffer :=
  { _elems := fill_loop val count 0 fresh
    _logical_size := count
    _buffer_size := sz_mul 2 count
    _cursor_index := count
    _gap_size := sz_sub (sz_mul 2 count) count }

/-- `GapBuffer::size`. -/
def size (b : GapBuffer) : Nat := b._logical_size

/-- `GapBuffer::cursor_index`. -/
def cursor_index (b : GapBuffer) : Nat := b._cursor_index

/-- `GapBuffer::empty`. -/
def empty (b : GapBuffer) : Bool := b._logical_size == 0

/-- `GapBuffer::to_array_index`. -/
def to_array_index (b : GapBuffer) (external_index : Nat) : Nat :=
  if external_index < b._cursor_index then external_index
  else sz_add external_index b._gap_size

/-- `GapBuffer::to_external_index`. -/
def to_external_index (b : GapBuffer) (array_index : Nat) : Except String Nat :=
  if array_index < b._cursor_index then .ok array_index
  else if array_index ≥ sz_add b._cursor_index b._gap_size then
    .ok (sz_sub array_index b._cursor_index)
  else .error "to_external_index: array_index is out of bounds!"

/-- `GapBuffer::at(size_type pos) const`; the test `pos < 0` of the source is
never true of an unsigned `pos`. -/
def at_ (b : GapBuffer) (pos : Nat) : Except String value_type :=
  if pos ≥ b._logical_size then .error "external index out of bounds"
  else .ok (b._elems (b.to_array_index pos))

/-- A call of the `const` member function `at` as a step on the buffer state:
the value returned and the state after the call.  The body of `at` assigns to
no data member and to no slot of `_elems`, so the state after the call is the
state before it. -/
def call_at (b : GapBuffer) (pos : Nat) : Except String (value_type × GapBuffer) :=
  (b.at_ pos).map (fun v => (v, b))

/-- `GapBuffer::get_at_cursor() const`. -/
def get_at_cursor (b : GapBuffer) : Except String value_type :=
  if b._cursor_index = b._logical_size then .error "No element after the cursor"
  else .ok (b._elems b._cursor_index)

/-- `GapBuffer::reserve(size_type new_size)`.  The destination
`new_elems + _cursor_index + new_gap_size` is the plain sum of offsets, not
reduced modulo `2^64`: when `size() < new_size < _buffer_size` the source
writes before the start of the new block, and the contents the model gives
for that call are not those of the program (the four size members are). -/
def reserve (fresh : Nat → value_type) (new_size : Nat) (b : GapBuffer) : GapBuffer :=
  if b.size ≥ new_size then b
  else
    let new_elems := std_move b._elems 0 b._cursor_index fresh 0
    let new_gap_size := sz_sub new_size b._buffer_size
    let new_elems := std_move b._elems b._cursor_index (b._buffer_size - b._cursor_index)
      new_elems (b._cursor_index + new_gap_size)
    { _elems := new_elems
      _logical_size := b._logical_size
      _buffer_size := new_size
      _cursor_index := b._cursor_index
      _gap_size := new_gap_size }

/-- The first statement of `insert_at_cursor`:
`if (_gap_size == 0) reserve(2 * _buffer_size);`. -/
def grow_if_full (fresh : Nat → value_type) (b : GapBuffer) : GapBuffer :=
  if b._gap_size = 0 then reserve fresh (sz_mul 2 b._buffer_size) b else b

/-- `GapBuffer::insert_at_cursor(const_reference element)`. -/
def insert_at_cursor (fresh : Nat → value_type) (element : value_type) (b : GapBuffer) :
    GapBuffer :=
  let b1 := grow_if_full fresh b
  { _elems := store b1._elems b1._cursor_index element
    _logical_size := sz_add b1._logical_size 1
    _buffer_size := b1._buffer_size
    _cursor_index := sz_add b1._cursor_index 1
    _gap_size := sz_sub b1._gap_size 1 }

/-- `GapBuffer::delete_at_cursor()`. -/
def delete_at_cursor (b : GapBuffer) : GapBuffer :=
  if b._cursor_index = 0 then b
  else
    { _elems := b._elems
      _logical_size := sz_sub b._logical_size 1
      _buffer_size := b._buffer_size
      _cursor_index := sz_sub b._cursor_index 1
      _gap_size := sz_add b._gap_size 1 }

/-- `GapBuffer::move_cursor(int delta)`.  `new_index` is the `size_t` sum
`_cursor_index + delta` narrowed to `int`; the pointers `begin_move`,
`end_move` and `destination` are offsets from `_elems`. -/
def move_cursor (delta : Int) (b : GapBuffer) : Except String GapBuffer :=
  let new_index := to_int (sz_of_int (b._cursor_index + delta))
  if new_index < 0 ∨ new_index > to_int b._buffer_size then
    .error "move_cursor: delta moves cursor out of bounds"
  else
    let elems :=
      if delta > 0 then
        std_move_inplace delta.toNat b._elems (b._cursor_index + b._gap_size) b._cursor_index
      else
        std_move_inplace (-delta).toNat b._elems (b._cursor_index + delta).toNat
          (b._cursor_index + b._gap_size + delta).toNat
    .ok { _elems := elems
          _logical_size := b._logical_size
          _buffer_size := b._buffer_size
          _cursor_index := sz_of_int (b._cursor_index + delta)
          _gap_size := b._gap_size }

/-- `GapBuffer::at(size_type pos)`, the non-const overload.  Its body is
`const_cast<reference>` of the result of the const overload, so it returns the
reference `_elems[to_array_index(pos)]` after the same bounds test.  A
reference into `_elems` is modelled by its offset. -/
def at_ref (b : GapBuffer) (pos : Nat) : Except String Nat :=
  if pos ≥ b._logical_size then .error "external index out of bounds"
  else .ok (b.to_array_index pos)

/-- The assignment `buf.at(pos) = v` through the reference the non-const `at`
returns. -/
def assign_at (b : GapBuffer) (pos : Nat) (v : value_type) : Except String GapBuffer :=
  (b.at_ref pos).map (fun slot => { b with _elems := store b._elems slot v })

/-- A call of `move_cursor` as a step on the object: the outcome of the call
and the object after it, which is the object `move_cursor` returns or, when the
call throws, the object before the call (the `throw` of `move_cursor` is
preceded by no assignment to a data member or to a slot of `_elems`). -/
def call_move_cursor (delta : Int) (b : GapBuffer) : Except String Unit × GapBuffer :=
  ((move_cursor delta b).map (fun _ => ()), ((move_cursor delta b).toOption).getD b)

/-- The calls `insert_at_cursor(v)` for the values `v` of a list, in order, with
no other call between them; `fresh k` is the content of the block that the call
number `k` allocates if it has to grow. -/
def insert_each (fresh : Nat → Nat → value_type) :
    Nat → List value_type → GapBuffer → GapBuffer
  | _, [], b => b
  | k, v :: vs, b => insert_each fresh (k + 1) vs (insert_at_cursor (fresh k) v b)

/-- The logical sequence `at(0), ..., at(size() - 1)` of a buffer. -/
def logical_sequence (b : GapBuffer) : List (Except String value_type) :=
  (List.range b.size).map b.at_

/-- The data-model invariants: `gap_size == capacity - logical_size` with
`logical_size ≤ capacity`, and `cursor ≤ logical_size`. -/
def Inv (b : GapBuffer) : Prop :=
  b._gap_size = b._buffer_size - b._logical_size ∧
  b._logical_size ≤ b._buffer_size ∧
  b._cursor_index ≤ b._logical_size

instance (b : GapBuffer) : Decidable (Inv b) := by
  unfold Inv; infer_instance

/-- Largest value of the 32-bit `int`. -/
def INT_MAX : Int := 2147483647

/-- Smallest value of the 32-bit `int`. -/
def INT_MIN : Int := -2147483648

/-- The storage block is an array object: its size is at most `PTRDIFF_MAX`. -/
def Allocated (b : GapBuffer) : Prop := b._buffer_size ≤ PTRDIFF_MAX

instance (b : GapBuffer) : Decidable (Allocated b) := by
  unfold Allocated; infer_instance

end GapBuffer

open GapBuffer

/-! ## States of the worked examples -/

/-- Contents of a freshly allocated block in the worked examples. -/
def blank : Nat → value_type := fun _ => '?'

/-- The buffer `"ab|c"`, the state reached from `GapBuffer()` by inserting `a`,
`b`, `c` and moving the cursor left by one. -/
def sample_ab_c : GapBuffer :=
  { _elems := store (store (store (store blank 0 'a') 1 'b') 2 'c') 9 'c'
    _logical_size := 3
    _buffer_size := 10
    _cursor_index := 2
    _gap_size := 7 }

/-- The state after `GapBuffer()`, insert `a`, insert `b`, `move_cursor(-1)`,
`delete_at_cursor()`: the sequence `"b"` with the cursor at 0. -/
def state_b_right_of_gap : Except String GapBuffer :=
  (move_cursor (-1) (insert_at_cursor blank 'b' (insert_at_cursor blank 'a'
    (ctor_default blank)))).map delete_at_cursor

/-- The state after `GapBuffer()`, insert `a`, `move_cursor(-1)`, insert `x`,
`delete_at_cursor()`: the sequence `"a"` with the cursor at 0. -/
def state_a_after_backspace : Except String GapBuffer :=
  (move_cursor (-1) (insert_at_cursor blank 'a' (ctor_default blank))).map
    (fun b => delete_at_cursor (insert_at_cursor blank 'x' b))

/-- The buffer `GapBuffer(0, 'a')`: no element, no storage. -/
def empty_capacity_zero : GapBuffer := ctor_count blank 0 'a'

/-- The buffer `GapBuffer(1073741824, 'a')`: `2^30` elements in a block of
`2^31` slots. -/
def two_gib_buffer : GapBuffer := ctor_count blank 1073741824 'a'

/-- The state after `GapBuffer()`, insert `a`, insert `b`, insert `c`,
`move_cursor(-1)`: the sequence `"abc"` with the cursor at 2 and a gap of 7. -/
def state_ab_c : Except String GapBuffer :=
  move_cursor (-1) (insert_at_cursor blank 'c' (insert_at_cursor blank 'b'
    (insert_at_cursor blank 'a' (ctor_default blank))))

/-- The buffer holds exactly the values `xs` with the cursor after the last of
them, and its capacity is the default capacity doubled `k` times for some `k`,
with `k ≥ 1` once more than `kDefaultSize` values are held. -/
def HoldsAtEnd (b : GapBuffer) (xs : List value_type) : Prop :=
  Inv b ∧ b._cursor_index = b._logical_size ∧ b._logical_size = xs.length ∧
  logical_sequence b = xs.map Except.ok ∧
  kDefaultSize ≤ b._buffer_size ∧
  (b._buffer_size = kDefaultSize ∨ b._buffer_size ≤ 2 * xs.length) ∧
  ∃ k, b._buffer_size = kDefaultSize * 2 ^ k ∧ (kDefaultSize < xs.length → 1 ≤ k)

/-- The eleven values of the worked example of repeated insertion. -/
def eleven_values : List value_type :=
  ['h', 'e', 'l', 'l', 'o', ' ', 'w', 'o', 'r', 'l', 'd']

/-! ## Arithmetic of `size_t` without overflow -/

theorem sz_add_of_lt {a b : Nat} (h : a + b < SIZE_MOD) : sz_add a b = a + b := by
  unfold sz_add SIZE_MOD at *; omega

theorem sz_sub_of_le {a b : Nat} (hb : b ≤ a) (ha : a < SIZE_MOD) : sz_sub a b = a - b := by
  unfold sz_sub SIZE_MOD at *; omega

theorem sz_mul_two_of_lt {a : Nat} (h : 2 * a < SIZE_MOD) : sz_mul 2 a = 2 * a := by
  unfold sz_mul SIZE_MOD at *; omega

/-! ## Closed forms of the copy loops -/

theorem store_apply (m : Nat → value_type) (i : Nat) (v : value_type) (j : Nat) :
    store m i v j = if j = i then v else m j := rfl

theorem std_move_apply (src : Nat → value_type) (n : Nat) :
    ∀ (first : Nat) (dst : Nat → value_type) (d_first j : Nat),
      std_move src first n dst d_first j =
        if d_first ≤ j ∧ j < d_first + n then src (first + (j - d_first)) else dst j := by
  induction n with
  | zero =>
    intro first dst d_first j
    have h0 : ¬ (d_first ≤ j ∧ j < d_first + 0) := by omega
    simp only [std_move]
    rw [if_neg h0]
  | succ n ih =>
    intro first dst d_first j
    simp only [std_move, ih, store_apply]
    by_cases h1 : d_first + 1 ≤ j ∧ j < d_first + 1 + n
    · have h2 : d_first ≤ j ∧ j < d_first + (n + 1) := by omega
      rw [if_pos h1, if_pos h2]
      congr 1; omega
    · rw [if_neg h1]
      by_cases h3 : j = d_first
      · subst h3
        have h2 : j ≤ j ∧ j < j + (n + 1) := by omega
        rw [if_pos rfl, if_pos h2]
        congr 1; omega
      · have h2 : ¬ (d_first ≤ j ∧ j < d_first + (n + 1)) := by omega
        rw [if_neg h3, if_neg h2]

theorem fill_loop_apply (val : value_type) (n : Nat) :
    ∀ (start : Nat) (m : Nat → value_type) (j : Nat),
      fill_loop val n start m j = if start ≤ j ∧ j < start + n then val else m j := by
  induction n with
  | zero =>
    intro start m j
    have h0 : ¬ (start ≤ j ∧ j < start + 0) := by omega
    simp only [fill_loop]
    rw [if_neg h0]
  | succ n ih =>
    intro start m j
    simp only [fill_loop, ih, store_apply]
    by_cases h1 : start + 1 ≤ j ∧ j < start + 1 + n
    · have h2 : start ≤ j ∧ j < start + (n + 1) := by omega
      rw [if_pos h1, if_pos h2]
    · rw [if_neg h1]
      by_cases h3 : j = start
      · have h2 : start ≤ j ∧ j < start + (n + 1) := by omega
        rw [if_pos h3, if_pos h2]
      · have h2 : ¬ (start ≤ j ∧ j < start + (n + 1)) := by omega
        rw [if_neg h3, if_neg h2]

/-! ## The logical sequence -/

theorem logical_sequence_length (b : GapBuffer) : (logical_sequence b).length = b.size := by
  simp [logical_sequence]

theorem logical_sequence_getElem? (b : GapBuffer) (i : Nat) :
    (logical_sequence b)[i]? = if i < b.size then some (b.at_ i) else none := by
  unfold logical_sequence
  by_cases h : i < b.size
  · simp [h, List.getElem?_range h]
  · simp [h]
    omega

/-! ## Growth of a full buffer -/

/-- The call `reserve(2 * _buffer_size)`: the new gap size is the old capacity,
the slots before the cursor are copied in place and the slots from the cursor
on are copied `_buffer_size` slots further. -/
theorem reserve_double_fields (fresh : Nat → value_type) (b : GapBuffer)
    (hcap : 1 ≤ b._buffer_size) (hinv : Inv b) (halloc : Allocated b) :
    (reserve fresh (sz_mul 2 b._buffer_size) b)._logical_size = b._logical_size ∧
    (reserve fresh (sz_mul 2 b._buffer_size) b)._buffer_size = 2 * b._buffer_size ∧
    (reserve fresh (sz_mul 2 b._buffer_size) b)._cursor_index = b._cursor_index ∧
    (reserve fresh (sz_mul 2 b._buffer_size) b)._gap_size = b._buffer_size ∧
    (∀ j, j < b._cursor_index →
      (reserve fresh (sz_mul 2 b._buffer_size) b)._elems j = b._elems j) ∧
    (∀ j, b._cursor_index ≤ j → j < b._buffer_size →
      (reserve fresh (sz_mul 2 b._buffer_size) b)._elems (j + b._buffer_size) = b._elems j) := by
  obtain ⟨hg, hle, hc⟩ := hinv
  unfold Allocated PTRDIFF_MAX at halloc
  have h2 : sz_mul 2 b._buffer_size = 2 * b._buffer_size :=
    sz_mul_two_of_lt (by unfold SIZE_MOD; omega)
  have hsz : ¬ (b.size ≥ 2 * b._buffer_size) := by unfold size; omega
  have hgap : sz_sub (2 * b._buffer_size) b._buffer_size = b._buffer_size := by
    rw [sz_sub_of_le (by omega) (by unfold SIZE_MOD; omega)]; omega
  rw [h2]
  unfold reserve
  simp only [if_neg hsz, hgap]
  refine ⟨trivial, trivial, trivial, trivial, ?_, ?_⟩
  · intro j hj
    rw [std_move_apply, std_move_apply]
    have h1 : ¬ (b._cursor_index + b._buffer_size ≤ j ∧
        j < b._cursor_index + b._buffer_size + (b._buffer_size - b._cursor_index)) := by omega
    have h3 : 0 ≤ j ∧ j < 0 + b._cursor_index := by omega
    rw [if_neg h1, if_pos h3]
    congr 1; omega
  · intro j hj1 hj2
    rw [std_move_apply]
    have h1 : b._cursor_index + b._buffer_size ≤ j + b._buffer_size ∧
        j + b._buffer_size <
          b._cursor_index + b._buffer_size + (b._buffer_size - b._cursor_index) := by omega
    rw [if_pos h1]
    congr 1; omega

/-- The state in which `insert_at_cursor` performs its write: sizes and cursor
are those of the buffer before the call, the gap is not empty, and every
logical element is still read from the slot the index translation names. -/
theorem grow_if_full_spec (fresh : Nat → value_type) (b : GapBuffer)
    (hcap : 1 ≤ b._buffer_size) (hinv : Inv b) (halloc : Allocated b) :
    (grow_if_full fresh b)._logical_size = b._logical_size ∧
    (grow_if_full fresh b)._cursor_index = b._cursor_index ∧
    1 ≤ (grow_if_full fresh b)._gap_size ∧
    (grow_if_full fresh b)._gap_size + b._logical_size = (grow_if_full fresh b)._buffer_size ∧
    (grow_if_full fresh b)._buffer_size < SIZE_MOD ∧
    (∀ j, j < b._cursor_index → (grow_if_full fresh b)._elems j = b._elems j) ∧
    (∀ j, b._cursor_index ≤ j → j < b._logical_size →
      (grow_if_full fresh b)._elems (j + (grow_if_full fresh b)._gap_size) =
        b._elems (j + b._gap_size)) := by
  by_cases hfull : b._gap_size = 0
  · obtain ⟨r1, r2, r3, r4, r5, r6⟩ := reserve_double_fields fresh b hcap hinv halloc
    obtain ⟨hg, hle, hc⟩ := hinv
    unfold Allocated PTRDIFF_MAX at halloc
    have hgf : grow_if_full fresh b = reserve fresh (sz_mul 2 b._buffer_size) b := by
      unfold grow_if_full; rw [if_pos hfull]
    rw [hgf, r1, r2, r3, r4]
    refine ⟨rfl, rfl, hcap, by omega, by unfold SIZE_MOD; omega, r5, ?_⟩
    intro j hj1 hj2
    rw [r6 j hj1 (by omega), hfull]
    rfl
  · obtain ⟨hg, hle, hc⟩ := hinv
    unfold Allocated PTRDIFF_MAX at halloc
    have hgf : grow_if_full fresh b = b := by
      unfold grow_if_full; rw [if_neg hfull]
    rw [hgf]
    refine ⟨rfl, rfl, by omega, by omega, by unfold SIZE_MOD; omega, ?_, ?_⟩
    · intro j _; rfl
    · intro j _ _; rfl

/-- Reading a logical index below the size under the invariants. -/
theorem at_of_lt (b : GapBuffer) (hinv : Inv b) (halloc : Allocated b) (i : Nat)
    (hi : i < b._logical_size) :
    b.at_ i = .ok (b._elems (if i < b._cursor_index then i else i + b._gap_size)) := by
  obtain ⟨hg, hle, hc⟩ := hinv
  unfold Allocated PTRDIFF_MAX at halloc
  unfold at_ to_array_index
  have h1 : ¬ (i ≥ b._logical_size) := by omega
  rw [if_neg h1]
  by_cases h2 : i < b._cursor_index
  · rw [if_pos h2, if_pos h2]
  · rw [if_neg h2, if_neg h2, sz_add_of_lt (by unfold SIZE_MOD; omega)]

/-- Reading the buffer after `insert_at_cursor`, index by index. -/
theorem at_insert_at_cursor (fresh : Nat → value_type) (v : value_type) (b : GapBuffer)
    (hcap : 1 ≤ b._buffer_size) (hinv : Inv b) (halloc : Allocated b) (i : Nat)
    (hi : i < b._logical_size + 1) :
    (insert_at_cursor fresh v b).at_ i =
      if i < b._cursor_index then b.at_ i
      else if i = b._cursor_index then .ok v
      else b.at_ (i - 1) := by
  obtain ⟨g1, g2, g3, g4, g5, g6, g7⟩ := grow_if_full_spec fresh b hcap hinv halloc
  have hinv0 := hinv
  obtain ⟨hg, hle, hc⟩ := hinv
  have hA := halloc
  unfold Allocated PTRDIFF_MAX at hA
  unfold SIZE_MOD at g5
  have e1 : sz_add (grow_if_full fresh b)._logical_size 1 = b._logical_size + 1 := by
    rw [g1, sz_add_of_lt (by unfold SIZE_MOD; omega)]
  have e2 : sz_add b._cursor_index 1 = b._cursor_index + 1 :=
    sz_add_of_lt (by unfold SIZE_MOD; omega)
  have e3 : sz_sub (grow_if_full fresh b)._gap_size 1 = (grow_if_full fresh b)._gap_size - 1 :=
    sz_sub_of_le g3 (by unfold SIZE_MOD; omega)
  unfold insert_at_cursor at_ to_array_index
  simp only [e1, g2, e2, e3]
  have h1 : ¬ (i ≥ b._logical_size + 1) := by omega
  rw [if_neg h1]
  by_cases h2 : i < b._cursor_index
  · have h3 : i < b._cursor_index + 1 := by omega
    have h4 : ¬ (i ≥ b._logical_size) := by omega
    have h5 : ¬ (i = b._cursor_index) := by omega
    rw [if_pos h3, if_pos h2, if_neg h4, if_pos h2, store_apply, if_neg h5, g6 i h2]
  · rw [if_neg h2]
    by_cases h3 : i = b._cursor_index
    · have h4 : i < b._cursor_index + 1 := by omega
      rw [if_pos h4, if_pos h3, store_apply, if_pos h3]
    · have h4 : ¬ (i < b._cursor_index + 1) := by omega
      have h5 : ¬ (i - 1 ≥ b._logical_size) := by omega
      have h6 : ¬ (i - 1 < b._cursor_index) := by omega
      rw [if_neg h4, if_neg h3, if_neg h5, if_neg h6,
        sz_add_of_lt (by unfold SIZE_MOD; omega), sz_add_of_lt (by unfold SIZE_MOD; omega),
        store_apply]
      have h7 : ¬ (i + ((grow_if_full fresh b)._gap_size - 1) = b._cursor_index) := by omega
      have h8 : i + ((grow_if_full fresh b)._gap_size - 1) =
          (i - 1) + (grow_if_full fresh b)._gap_size := by omega
      rw [if_neg h7, h8, g7 (i - 1) (by omega) (by omega)]

/-- C1. For a buffer with capacity at least 1 that satisfies the data-model
invariants, `insert_at_cursor(v)` makes the logical sequence the old one with
`v` spliced in at the old cursor (the elements before the cursor stay, the
elements from the cursor on move up by one), the inserted value is read by
`at` at the old cursor, and `size()` and `cursor_index()` both grow by exactly
one. -/
theorem insert_at_cursor_splices (fresh : Nat → value_type) (v : value_type) (b : GapBuffer)
    (hcap : 1 ≤ b._buffer_size) (hinv : Inv b) (halloc : Allocated b) :
    logical_sequence (insert_at_cursor fresh v b) =
        (logical_sequence b).take b.cursor_index ++
          Except.ok v :: (logical_sequence b).drop b.cursor_index ∧
    (insert_at_cursor fresh v b).at_ b.cursor_index = Except.ok v ∧
    (insert_at_cursor fresh v b).size = b.size + 1 ∧
    (insert_at_cursor fresh v b).cursor_index = b.cursor_index + 1 := by
  obtain ⟨g1, g2, g3, g4, g5, g6, g7⟩ := grow_if_full_spec fresh b hcap hinv halloc
  have hat := at_insert_at_cursor fresh v b hcap hinv halloc
  obtain ⟨hg, hle, hc⟩ := hinv
  unfold Allocated PTRDIFF_MAX at halloc
  have hsize : (insert_at_cursor fresh v b).size = b.size + 1 := by
    unfold insert_at_cursor size
    simp only [g1]
    exact sz_add_of_lt (by unfold SIZE_MOD; omega)
  have hcur : (insert_at_cursor fresh v b).cursor_index = b.cursor_index + 1 := by
    unfold insert_at_cursor cursor_index
    simp only [g2]
    exact sz_add_of_lt (by unfold SIZE_MOD; omega)
  refine ⟨?_, ?_, hsize, hcur⟩
  · apply List.ext_getElem?
    intro n
    have hlen : (List.take b.cursor_index (logical_sequence b)).length = b._cursor_index := by
      rw [List.length_take, logical_sequence_length]
      unfold cursor_index size; omega
    rw [logical_sequence_getElem?, hsize]
    unfold size cursor_index at *
    by_cases h1 : n < b._cursor_index
    · rw [List.getElem?_append_left (by omega), List.getElem?_take_of_lt h1,
        logical_sequence_getElem?]
      unfold size
      rw [if_pos (by omega), if_pos (by omega), hat n (by omega), if_pos h1]
    · rw [List.getElem?_append_right (by omega), hlen]
      by_cases h2 : n = b._cursor_index
      · subst h2
        rw [Nat.sub_self, List.getElem?_cons_zero, if_pos (by omega), hat _ (by omega),
          if_neg h1, if_pos rfl]
      · obtain ⟨k, hk⟩ : ∃ k, n - b._cursor_index = k + 1 := ⟨n - b._cursor_index - 1, by omega⟩
        rw [hk, List.getElem?_cons_succ, List.getElem?_drop, logical_sequence_getElem?]
        unfold size
        have e : b._cursor_index + k = n - 1 := by omega
        rw [e]
        by_cases h3 : n < b._logical_size + 1
        · rw [if_pos h3, if_pos (by omega), hat n h3, if_neg h1, if_neg h2]
        · rw [if_neg h3, if_neg (by omega)]
  · unfold cursor_index
    rw [hat _ (by omega), if_neg (by omega), if_pos rfl]

/-- Witness of C1 on the buffer `"ab|c"` with the value `X`. -/
theorem insert_at_cursor_splices_witness :
    (1 ≤ sample_ab_c._buffer_size ∧ Inv sample_ab_c ∧ Allocated sample_ab_c) ∧
    (logical_sequence (insert_at_cursor blank 'X' sample_ab_c) =
        (logical_sequence sample_ab_c).take sample_ab_c.cursor_index ++
          Except.ok 'X' :: (logical_sequence sample_ab_c).drop sample_ab_c.cursor_index ∧
      (insert_at_cursor blank 'X' sample_ab_c).at_ sample_ab_c.cursor_index = Except.ok 'X' ∧
      (insert_at_cursor blank 'X' sample_ab_c).size = sample_ab_c.size + 1 ∧
      (insert_at_cursor blank 'X' sample_ab_c).cursor_index = sample_ab_c.cursor_index + 1) :=
  ⟨⟨by decide, by decide, by decide⟩,
    insert_at_cursor_splices blank 'X' sample_ab_c (by decide) (by decide) (by decide)⟩

/-- Reading the buffer after `delete_at_cursor`, index by index. -/
theorem at_delete_at_cursor (b : GapBuffer) (hinv : Inv b) (halloc : Allocated b)
    (hpos : 0 < b._cursor_index) (i : Nat) (hi : i + 1 < b._logical_size) :
    (delete_at_cursor b).at_ i =
      if i < b._cursor_index - 1 then b.at_ i else b.at_ (i + 1) := by
  obtain ⟨hg, hle, hc⟩ := hinv
  unfold Allocated PTRDIFF_MAX at halloc
  have e1 : sz_sub b._logical_size 1 = b._logical_size - 1 :=
    sz_sub_of_le (by omega) (by unfold SIZE_MOD; omega)
  have e2 : sz_sub b._cursor_index 1 = b._cursor_index - 1 :=
    sz_sub_of_le (by omega) (by unfold SIZE_MOD; omega)
  have e3 : sz_add b._gap_size 1 = b._gap_size + 1 :=
    sz_add_of_lt (by unfold SIZE_MOD; omega)
  have hne : ¬ (b._cursor_index = 0) := by omega
  unfold delete_at_cursor
  rw [if_neg hne]
  unfold at_ to_array_index
  simp only [e1, e2, e3]
  have h1 : ¬ (i ≥ b._logical_size - 1) := by omega
  rw [if_neg h1]
  by_cases h2 : i < b._cursor_index - 1
  · have h3 : ¬ (i ≥ b._logical_size) := by omega
    have h4 : i < b._cursor_index := by omega
    rw [if_pos h2, if_pos h2, if_neg h3, if_pos h4]
  · have h3 : ¬ (i + 1 ≥ b._logical_size) := by omega
    have h4 : ¬ (i + 1 < b._cursor_index) := by omega
    rw [if_neg h2, if_neg h2, if_neg h3, if_neg h4,
      sz_add_of_lt (by unfold SIZE_MOD; omega), sz_add_of_lt (by unfold SIZE_MOD; omega)]
    have h5 : i + (b._gap_size + 1) = i + 1 + b._gap_size := by omega
    rw [h5]

/-- C2. For a buffer that satisfies the data-model invariants with
`0 < cursor ≤ logical_size`, `delete_at_cursor()` makes the logical sequence
the old one with exactly the element at logical index `cursor - 1` removed
(the others keep their order), and `size()` and `cursor_index()` both go down
by exactly one. -/
theorem delete_at_cursor_erases (b : GapBuffer) (hinv : Inv b) (halloc : Allocated b)
    (hpos : 0 < b._cursor_index) :
    logical_sequence (delete_at_cursor b) =
        (logical_sequence b).eraseIdx (b.cursor_index - 1) ∧
    (delete_at_cursor b).size + 1 = b.size ∧
    (delete_at_cursor b).cursor_index + 1 = b.cursor_index := by
  have hat := at_delete_at_cursor b hinv halloc hpos
  obtain ⟨hg, hle, hc⟩ := hinv
  unfold Allocated PTRDIFF_MAX at halloc
  have hne : ¬ (b._cursor_index = 0) := by omega
  have hsize : (delete_at_cursor b).size = b._logical_size - 1 := by
    unfold delete_at_cursor size
    rw [if_neg hne]
    exact sz_sub_of_le (by omega) (by unfold SIZE_MOD; omega)
  have hcur : (delete_at_cursor b).cursor_index = b._cursor_index - 1 := by
    unfold delete_at_cursor cursor_index
    rw [if_neg hne]
    exact sz_sub_of_le (by omega) (by unfold SIZE_MOD; omega)
  refine ⟨?_, by rw [hsize]; unfold size; omega, by rw [hcur]; unfold cursor_index; omega⟩
  apply List.ext_getElem?
  intro n
  rw [List.getElem?_eraseIdx, logical_sequence_getElem?, logical_sequence_getElem?,
    logical_sequence_getElem?, hsize]
  unfold size cursor_index
  by_cases h1 : n < b._logical_size - 1
  · rw [if_pos h1, hat n (by omega)]
    by_cases h2 : n < b._cursor_index - 1
    · rw [if_pos h2, if_pos h2, if_pos (by omega)]
    · rw [if_neg h2, if_neg h2, if_pos (by omega)]
  · rw [if_neg h1]
    by_cases h2 : n < b._cursor_index - 1
    · omega
    · rw [if_neg h2, if_neg (by omega)]

/-- Witness of C2 on the buffer `"ab|c"`. -/
theorem delete_at_cursor_erases_witness :
    (Inv sample_ab_c ∧ Allocated sample_ab_c ∧ 0 < sample_ab_c._cursor_index) ∧
    (logical_sequence (delete_at_cursor sample_ab_c) =
        (logical_sequence sample_ab_c).eraseIdx (sample_ab_c.cursor_index - 1) ∧
      (delete_at_cursor sample_ab_c).size + 1 = sample_ab_c.size ∧
      (delete_at_cursor sample_ab_c).cursor_index + 1 = sample_ab_c.cursor_index) :=
  ⟨⟨by decide, by decide, by decide⟩,
    delete_at_cursor_erases sample_ab_c (by decide) (by decide) (by decide)⟩

/-- C4. `GapBuffer()`, insert `a`, insert `b`, `move_cursor(-1)`,
`delete_at_cursor()` gives the sequence `"b"` in a state that satisfies the
invariants, with capacity 10, a gap of 9 slots and `b` in the right segment.
`reserve(20)` moves slots `[cursor, _buffer_size)` to the end of the new block
and sets the gap size to `20 - 10` instead of `20 - 1`: the capacity is 20, and
the logical sequence afterwards is `"a"`, a stale byte of the old gap. -/
theorem reserve_partial_gap_breaks_sequence :
    state_b_right_of_gap.map (fun b => decide (Inv b)) = .ok true ∧
    state_b_right_of_gap.map (fun b => (b._buffer_size, b._gap_size, b._cursor_index)) =
      .ok (10, 9, 0) ∧
    state_b_right_of_gap.map logical_sequence = .ok [.ok 'b'] ∧
    state_b_right_of_gap.map
        (fun b => ((reserve blank 20 b)._buffer_size, (reserve blank 20 b)._gap_size)) =
      .ok (20, 10) ∧
    state_b_right_of_gap.map (fun b => logical_sequence (reserve blank 20 b)) =
      .ok [.ok 'a'] :=
  by decide

/-- C5. After `GapBuffer()` the gap size is `capacity - logical_size = 10`; after
`reserve(20)` on it the capacity is 20, the logical size 0 and the gap size 10,
not 20. -/
theorem reserve_breaks_gap_equation :
    (ctor_default blank)._gap_size =
        (ctor_default blank)._buffer_size - (ctor_default blank)._logical_size ∧
    (reserve blank 20 (ctor_default blank))._gap_size = 10 ∧
    (reserve blank 20 (ctor_default blank))._buffer_size -
        (reserve blank 20 (ctor_default blank))._logical_size = 20 ∧
    sz_sub (reserve blank 20 (ctor_default blank))._buffer_size
        (reserve blank 20 (ctor_default blank))._logical_size = 20 :=
  by decide

/-- C6. `GapBuffer()` followed by `move_cursor(1)` does not raise and leaves
cursor 1, gap size 10 and capacity 10: `cursor + gap_size` is 11. -/
theorem move_cursor_past_logical_end :
    (move_cursor 1 (ctor_default blank)).map
        (fun b => (b._cursor_index, b._gap_size, b._buffer_size,
          decide (b._cursor_index + b._gap_size ≤ b._buffer_size))) =
      .ok (1, 10, 10, false) :=
  by decide

/-- C7. `GapBuffer(0, 'a')` followed by `insert_at_cursor('x')` has logical size
1 and capacity 0; `GapBuffer()`, `move_cursor(1)`, `delete_at_cursor()` has
logical size `2^64 - 1` (the decrement of 0) and capacity 10. -/
theorem logical_size_exceeds_capacity :
    ((insert_at_cursor blank 'x' (ctor_count blank 0 'a'))._logical_size = 1 ∧
      (insert_at_cursor blank 'x' (ctor_count blank 0 'a'))._buffer_size = 0) ∧
    (move_cursor 1 (ctor_default blank)).map
        (fun b => ((delete_at_cursor b)._logical_size, (delete_at_cursor b)._buffer_size)) =
      .ok (18446744073709551615, 10) :=
  by decide

/-- C8. `GapBuffer()`, insert `a`, `move_cursor(-1)`, insert `x`,
`delete_at_cursor()` gives the sequence `"a"` with the cursor at 0 and a gap of
9 slots, a state that satisfies the invariants.  There `get_at_cursor()`
returns `x`, the stale content of the first gap slot, while `at(cursor_index())`
and the slot `cursor + gap_size` hold `a`. -/
theorem get_at_cursor_reads_gap_slot :
    state_a_after_backspace.map (fun b => decide (Inv b)) = .ok true ∧
    state_a_after_backspace.map
        (fun b => (b._cursor_index, b._logical_size, b._gap_size)) = .ok (0, 1, 9) ∧
    state_a_after_backspace.map get_at_cursor = .ok (.ok 'x') ∧
    state_a_after_backspace.map (fun b => b.at_ b.cursor_index) = .ok (.ok 'a') ∧
    state_a_after_backspace.map (fun b => b._elems (b._cursor_index + b._gap_size)) =
      .ok 'a' :=
  by decide

/-- C9. For every buffer state and every index `e`, `at(e)` raises the
out-of-range error exactly when `e ≥ logical_size`; when `e < logical_size` it
returns the value stored at the physical slot `to_array_index(e)` and leaves
the buffer state unchanged, where that slot is `e` if `e < cursor` and
`e + gap_size` (the `size_t` sum, equal to the mathematical sum when it does
not overflow) otherwise. -/
theorem at_raises_iff_out_of_range (b : GapBuffer) (e : Nat) :
    (b.at_ e = .error "external index out of bounds" ↔ e ≥ b._logical_size) ∧
    ((∃ msg, b.at_ e = .error msg) ↔ e ≥ b._logical_size) ∧
    (e < b._logical_size →
      b.at_ e = .ok (b._elems (b.to_array_index e)) ∧
      call_at b e = .ok (b._elems (b.to_array_index e), b)) ∧
    (e < b._cursor_index → b.to_array_index e = e) ∧
    (b._cursor_index ≤ e → b.to_array_index e = sz_add e b._gap_size) ∧
    (b._cursor_index ≤ e → e + b._gap_size < SIZE_MOD →
      b.to_array_index e = e + b._gap_size) := by
  refine ⟨?_, ?_, ?_, ?_, ?_, ?_⟩
  · unfold at_
    by_cases h : e ≥ b._logical_size
    · simp [h]
    · simp [h]
  · unfold at_
    by_cases h : e ≥ b._logical_size
    · simp [h]
    · simp [h]
  · intro h
    have h1 : ¬ (e ≥ b._logical_size) := by omega
    unfold call_at at_
    rw [if_neg h1]
    exact ⟨rfl, rfl⟩
  · intro h
    unfold to_array_index
    rw [if_pos h]
  · intro h
    have h1 : ¬ (e < b._cursor_index) := by omega
    unfold to_array_index
    rw [if_neg h1]
  · intro h h2
    have h1 : ¬ (e < b._cursor_index) := by omega
    unfold to_array_index
    rw [if_neg h1, sz_add_of_lt h2]

/-- Witness of C9 on the buffer `"ab|c"`: index 2 is read from slot `2 + 7`,
index 1 from slot 1, and index 3 is out of range. -/
theorem at_raises_iff_out_of_range_witness :
    (2 < sample_ab_c._logical_size ∧ sample_ab_c._cursor_index ≤ 2 ∧
      2 + sample_ab_c._gap_size < SIZE_MOD) ∧
    (sample_ab_c.at_ 2 = .ok (sample_ab_c._elems (sample_ab_c.to_array_index 2)) ∧
      call_at sample_ab_c 2 =
        .ok (sample_ab_c._elems (sample_ab_c.to_array_index 2), sample_ab_c)) ∧
    sample_ab_c.to_array_index 2 = 2 + sample_ab_c._gap_size ∧
    sample_ab_c.to_array_index 1 = 1 ∧
    sample_ab_c.at_ 3 = .error "external index out of bounds" :=
  ⟨⟨by decide, by decide, by decide⟩,
    (at_raises_iff_out_of_range sample_ab_c 2).2.2.1 (by decide),
    (at_raises_iff_out_of_range sample_ab_c 2).2.2.2.2.2 (by decide) (by decide),
    (at_raises_iff_out_of_range sample_ab_c 1).2.2.2.1 (by decide),
    (at_raises_iff_out_of_range sample_ab_c 3).1.mpr (by decide)⟩

/-- C10. `GapBuffer(0, 'a')` is full and satisfies the invariants.  In
`insert_at_cursor('x')` the call `reserve(2 * 0)` returns at once, so the write
goes to slot 0 of a block of capacity 0; afterwards the gap size is the
decrement of 0, `2^64 - 1`, the logical size 1 exceeds the capacity 0 and the
invariants do not hold. -/
theorem insert_into_capacity_zero :
    decide (Inv empty_capacity_zero) = true ∧
    (empty_capacity_zero._gap_size = 0 ∧
      empty_capacity_zero._logical_size = empty_capacity_zero._buffer_size) ∧
    ((grow_if_full blank empty_capacity_zero)._cursor_index = 0 ∧
      (grow_if_full blank empty_capacity_zero)._buffer_size = 0) ∧
    ((insert_at_cursor blank 'x' empty_capacity_zero)._gap_size = 18446744073709551615 ∧
      (insert_at_cursor blank 'x' empty_capacity_zero)._logical_size = 1 ∧
      (insert_at_cursor blank 'x' empty_capacity_zero)._buffer_size = 0) ∧
    decide (Inv (insert_at_cursor blank 'x' empty_capacity_zero)) = false :=
  by decide

/-- A full buffer of capacity at least 1 does grow before the write: the slot
written is below the capacity at the time of the write, the gap size does not
wrap and the invariants hold afterwards. -/
theorem insert_at_cursor_full_grows (fresh : Nat → value_type) (v : value_type)
    (b : GapBuffer) (hcap : 1 ≤ b._buffer_size) (hinv : Inv b) (halloc : Allocated b) :
    (grow_if_full fresh b)._cursor_index < (grow_if_full fresh b)._buffer_size ∧
    (insert_at_cursor fresh v b)._gap_size + 1 = (grow_if_full fresh b)._gap_size ∧
    Inv (insert_at_cursor fresh v b) := by
  obtain ⟨g1, g2, g3, g4, g5, _, _⟩ := grow_if_full_spec fresh b hcap hinv halloc
  obtain ⟨hg, hle, hc⟩ := hinv
  unfold SIZE_MOD at g5
  have e1 : sz_add (grow_if_full fresh b)._logical_size 1 = b._logical_size + 1 := by
    rw [g1, sz_add_of_lt (by unfold SIZE_MOD; omega)]
  have e2 : sz_add (grow_if_full fresh b)._cursor_index 1 = b._cursor_index + 1 := by
    rw [g2, sz_add_of_lt (by unfold SIZE_MOD; omega)]
  have e3 : sz_sub (grow_if_full fresh b)._gap_size 1 = (grow_if_full fresh b)._gap_size - 1 :=
    sz_sub_of_le g3 (by unfold SIZE_MOD; omega)
  refine ⟨by omega, ?_, ?_⟩
  · unfold insert_at_cursor
    simp only [e3]
    omega
  · unfold GapBuffer.Inv insert_at_cursor
    simp only [e1, e2, e3]
    omega

/-- C12. `GapBuffer()` has capacity 10 and size 0.  `reserve(5)` passes the
test `size() >= new_size` (0 is below 5) and takes the growth path: afterwards
the capacity is 5 and the gap size is the wrapped difference `5 - 10`. -/
theorem reserve_below_capacity_shrinks :
    (ctor_default blank)._buffer_size = 10 ∧
    (reserve blank 5 (ctor_default blank))._buffer_size = 5 ∧
    (reserve blank 5 (ctor_default blank))._gap_size = 18446744073709551611 ∧
    (reserve blank 5 (ctor_default blank))._logical_size = 0 :=
  by decide

/-- C15. For every buffer state whose cursor is 0, `delete_at_cursor()` returns
without an error and leaves the whole state (storage, cursor, logical size,
capacity, gap size) as it was. -/
theorem delete_at_cursor_at_start_noop (b : GapBuffer) (h : b._cursor_index = 0) :
    delete_at_cursor b = b := by
  unfold delete_at_cursor
  rw [if_pos h]

/-- Witness of C15 on the empty buffer `GapBuffer()`. -/
theorem delete_at_cursor_at_start_noop_witness :
    (ctor_default blank)._cursor_index = 0 ∧
    delete_at_cursor (ctor_default blank) = ctor_default blank :=
  ⟨by decide, delete_at_cursor_at_start_noop (ctor_default blank) (by decide)⟩

/-- C17. In the state `"ab|c"` (cursor 2, gap size 7, invariants hold) the
logical index 2 is stored in slot `2 + 7 = 9`; `to_external_index(9)` returns
`9 - _cursor_index = 7`, not `9 - _gap_size = 2`. -/
theorem to_external_index_subtracts_cursor :
    state_ab_c.map (fun b => decide (Inv b)) = .ok true ∧
    state_ab_c.map (fun b => (b._logical_size, b._cursor_index, b._gap_size)) =
      .ok (3, 2, 7) ∧
    state_ab_c.map (fun b => b.to_array_index 2) = .ok 9 ∧
    state_ab_c.map (fun b => b.to_external_index (b.to_array_index 2)) = .ok (.ok 7) :=
  by decide

/-- C14. For every count `n` and every value `val`, `GapBuffer(n, val)` has
logical size `n`, cursor `n`, capacity `2 * n` and gap size `capacity - n` in
`size_t` arithmetic, which are `2 * n` and `n` whenever `2 * n` is
representable in `size_t`; `at(i)` is `val` for every `i < n` and raises the
out-of-range error for every `i ≥ n`, the slots `n .. 2n - 1` included. -/
theorem ctor_count_seeds (fresh : Nat → value_type) (n : Nat) (val : value_type) :
    (ctor_count fresh n val)._logical_size = n ∧
    (ctor_count fresh n val)._cursor_index = n ∧
    (ctor_count fresh n val)._buffer_size = sz_mul 2 n ∧
    (ctor_count fresh n val)._gap_size = sz_sub (sz_mul 2 n) n ∧
    (2 * n < SIZE_MOD →
      (ctor_count fresh n val)._buffer_size = 2 * n ∧
      (ctor_count fresh n val)._gap_size = n) ∧
    (∀ i, i < n → (ctor_count fresh n val).at_ i = .ok val) ∧
    (∀ i, n ≤ i →
      (ctor_count fresh n val).at_ i = .error "external index out of bounds") := by
  refine ⟨rfl, rfl, rfl, rfl, ?_, ?_, ?_⟩
  · intro hn
    have h2 : sz_mul 2 n = 2 * n := sz_mul_two_of_lt hn
    have h3 : sz_sub (2 * n) n = n := by
      rw [sz_sub_of_le (by omega) hn]; omega
    unfold ctor_count
    simp only [h2, h3]
    exact ⟨trivial, trivial⟩
  · intro i hi
    unfold at_ to_array_index ctor_count
    simp only
    have h4 : ¬ (i ≥ n) := by omega
    have h5 : 0 ≤ i ∧ i < 0 + n := by omega
    rw [if_neg h4, if_pos hi, fill_loop_apply, if_pos h5]
  · intro i hi
    unfold at_ ctor_count
    simp only
    have h4 : i ≥ n := hi
    rw [if_pos h4]

/-- Witness of C14: `GapBuffer(3, 'z')` has capacity 6 and gap size 3, reads
`z` at index 2 and raises at index 5. -/
theorem ctor_count_seeds_witness :
    (2 * 3 < SIZE_MOD ∧ 2 < 3 ∧ 3 ≤ 5) ∧
    ((ctor_count blank 3 'z')._buffer_size = 2 * 3 ∧
      (ctor_count blank 3 'z')._gap_size = 3) ∧
    (ctor_count blank 3 'z').at_ 2 = .ok 'z' ∧
    (ctor_count blank 3 'z').at_ 5 = .error "external index out of bounds" :=
  ⟨⟨by decide, by decide, by decide⟩,
    (ctor_count_seeds blank 3 'z').2.2.2.2.1 (by decide),
    (ctor_count_seeds blank 3 'z').2.2.2.2.2.1 2 (by decide),
    (ctor_count_seeds blank 3 'z').2.2.2.2.2.2 5 (by decide)⟩

/-- The index translation under the invariants, without the `size_t` wrap. -/
theorem to_array_index_of_lt (b : GapBuffer) (hinv : Inv b) (halloc : Allocated b) (i : Nat)
    (hi : i < b._logical_size) :
    b.to_array_index i = if i < b._cursor_index then i else i + b._gap_size := by
  obtain ⟨hg, hle, hc⟩ := hinv
  unfold Allocated PTRDIFF_MAX at halloc
  unfold to_array_index
  by_cases h2 : i < b._cursor_index
  · rw [if_pos h2, if_pos h2]
  · rw [if_neg h2, if_neg h2, sz_add_of_lt (by unfold SIZE_MOD; omega)]

/-- C18. Under the data-model invariants `to_array_index` sends every logical
index below the logical size to a slot below the capacity and outside the gap
region `[cursor, cursor + gap_size)`; it is strictly increasing on those
indices, hence injective. -/
theorem to_array_index_avoids_gap (b : GapBuffer) (hinv : Inv b) (halloc : Allocated b) :
    (∀ i, i < b._logical_size →
      b.to_array_index i < b._buffer_size ∧
      ¬ (b._cursor_index ≤ b.to_array_index i ∧
          b.to_array_index i < b._cursor_index + b._gap_size)) ∧
    (∀ i j, i < j → j < b._logical_size → b.to_array_index i < b.to_array_index j) ∧
    (∀ i j, i < b._logical_size → j < b._logical_size →
      b.to_array_index i = b.to_array_index j → i = j) := by
  have key := to_array_index_of_lt b hinv halloc
  obtain ⟨hg, hle, hc⟩ := hinv
  refine ⟨?_, ?_, ?_⟩
  · intro i hi
    rw [key i hi]
    by_cases h : i < b._cursor_index
    · rw [if_pos h]; omega
    · rw [if_neg h]; omega
  · intro i j hij hj
    rw [key i (by omega), key j hj]
    by_cases h1 : i < b._cursor_index <;> by_cases h2 : j < b._cursor_index
    · rw [if_pos h1, if_pos h2]; exact hij
    · rw [if_pos h1, if_neg h2]; omega
    · omega
    · rw [if_neg h1, if_neg h2]; omega
  · intro i j hi hj
    rw [key i hi, key j hj]
    by_cases h1 : i < b._cursor_index <;> by_cases h2 : j < b._cursor_index
    · rw [if_pos h1, if_pos h2]; exact id
    · rw [if_pos h1, if_neg h2]; omega
    · rw [if_neg h1, if_pos h2]; omega
    · rw [if_neg h1, if_neg h2]; omega

/-- Witness of C18 on the buffer `"ab|c"`. -/
theorem to_array_index_avoids_gap_witness :
    (Inv sample_ab_c ∧ Allocated sample_ab_c) ∧
    ((∀ i, i < sample_ab_c._logical_size →
      sample_ab_c.to_array_index i < sample_ab_c._buffer_size ∧
      ¬ (sample_ab_c._cursor_index ≤ sample_ab_c.to_array_index i ∧
          sample_ab_c.to_array_index i <
            sample_ab_c._cursor_index + sample_ab_c._gap_size)) ∧
    (∀ i j, i < j → j < sample_ab_c._logical_size →
      sample_ab_c.to_array_index i < sample_ab_c.to_array_index j) ∧
    (∀ i j, i < sample_ab_c._logical_size → j < sample_ab_c._logical_size →
      sample_ab_c.to_array_index i = sample_ab_c.to_array_index j → i = j)) :=
  ⟨⟨by decide, by decide⟩, to_array_index_avoids_gap sample_ab_c (by decide) (by decide)⟩

/-- C16. Under the data-model invariants, for every index `e` below the
logical size and every value `v`, the assignment `at(e) = v` through the
mutable reference succeeds, puts `v` in the slot `to_array_index(e)` and
changes no other slot; afterwards `at(e)` is `v`, `at(j)` is what it was for
every other `j` below the logical size, and cursor, logical size, capacity and
gap size are what they were. -/
theorem assign_at_changes_one_slot (b : GapBuffer) (hinv : Inv b) (halloc : Allocated b)
    (e : Nat) (he : e < b._logical_size) (v : value_type) :
    ∃ b1, assign_at b e v = .ok b1 ∧
      b1._elems (b.to_array_index e) = v ∧
      (∀ s, s ≠ b.to_array_index e → b1._elems s = b._elems s) ∧
      b1.at_ e = .ok v ∧
      (∀ j, j ≠ e → j < b._logical_size → b1.at_ j = b.at_ j) ∧
      b1._cursor_index = b._cursor_index ∧
      b1._logical_size = b._logical_size ∧
      b1._buffer_size = b._buffer_size ∧
      b1._gap_size = b._gap_size := by
  have key := to_array_index_of_lt b hinv halloc
  have h1 : ¬ (e ≥ b._logical_size) := by omega
  refine ⟨{ b with _elems := store b._elems (b.to_array_index e) v }, ?_, ?_, ?_, ?_, ?_,
    rfl, rfl, rfl, rfl⟩
  · unfold assign_at at_ref
    rw [if_neg h1]
    rfl
  · simp only [store_apply, if_pos]
  · intro s hs
    simp only [store_apply, if_neg hs]
  · unfold at_
    simp only
    rw [if_neg h1]
    have h2 : to_array_index { b with _elems := store b._elems (b.to_array_index e) v } e =
        b.to_array_index e := rfl
    rw [h2, store_apply, if_pos rfl]
  · intro j hj hjl
    have h3 : ¬ (j ≥ b._logical_size) := by omega
    unfold at_
    simp only
    rw [if_neg h3, if_neg h3]
    have h2 : to_array_index { b with _elems := store b._elems (b.to_array_index e) v } j =
        b.to_array_index j := rfl
    have h4 : b.to_array_index j ≠ b.to_array_index e := by
      rw [key j hjl, key e he]
      by_cases c1 : j < b._cursor_index <;> by_cases c2 : e < b._cursor_index
      · rw [if_pos c1, if_pos c2]; exact hj
      · rw [if_pos c1, if_neg c2]; omega
      · rw [if_neg c1, if_pos c2]; omega
      · rw [if_neg c1, if_neg c2]; omega
    rw [h2, store_apply, if_neg h4]

/-- Witness of C16 on the buffer `"ab|c"`: `at(2) = 'Z'`. -/
theorem assign_at_changes_one_slot_witness :
    (Inv sample_ab_c ∧ Allocated sample_ab_c ∧ 2 < sample_ab_c._logical_size) ∧
    (∃ b1, assign_at sample_ab_c 2 'Z' = .ok b1 ∧
      b1._elems (sample_ab_c.to_array_index 2) = 'Z' ∧
      (∀ s, s ≠ sample_ab_c.to_array_index 2 → b1._elems s = sample_ab_c._elems s) ∧
      b1.at_ 2 = .ok 'Z' ∧
      (∀ j, j ≠ 2 → j < sample_ab_c._logical_size → b1.at_ j = sample_ab_c.at_ j) ∧
      b1._cursor_index = sample_ab_c._cursor_index ∧
      b1._logical_size = sample_ab_c._logical_size ∧
      b1._buffer_size = sample_ab_c._buffer_size ∧
      b1._gap_size = sample_ab_c._gap_size) :=
  ⟨⟨by decide, by decide, by decide⟩,
    assign_at_changes_one_slot sample_ab_c (by decide) (by decide) 2 (by decide) 'Z'⟩

/-- Reading the buffer after `insert_at_cursor(v)` followed by
`delete_at_cursor()`, together with the sizes of that state. -/
theorem insert_delete_fields (fresh : Nat → value_type) (v : value_type) (b : GapBuffer)
    (hcap : 1 ≤ b._buffer_size) (hinv : Inv b) (halloc : Allocated b) :
    (delete_at_cursor (insert_at_cursor fresh v b))._logical_size = b._logical_size ∧
    (delete_at_cursor (insert_at_cursor fresh v b))._cursor_index = b._cursor_index ∧
    (delete_at_cursor (insert_at_cursor fresh v b))._buffer_size =
      (grow_if_full fresh b)._buffer_size ∧
    (delete_at_cursor (insert_at_cursor fresh v b))._gap_size =
      (grow_if_full fresh b)._gap_size ∧
    (∀ i, i < b._logical_size →
      (delete_at_cursor (insert_at_cursor fresh v b)).at_ i = b.at_ i) := by
  obtain ⟨g1, g2, g3, g4, g5, g6, g7⟩ := grow_if_full_spec fresh b hcap hinv halloc
  obtain ⟨hg, hle, hc⟩ := hinv
  have hA := halloc
  unfold Allocated PTRDIFF_MAX at hA
  unfold SIZE_MOD at g5
  have e1 : sz_add (grow_if_full fresh b)._logical_size 1 = b._logical_size + 1 := by
    rw [g1, sz_add_of_lt (by unfold SIZE_MOD; omega)]
  have e2 : sz_add b._cursor_index 1 = b._cursor_index + 1 :=
    sz_add_of_lt (by unfold SIZE_MOD; omega)
  have e3 : sz_sub (grow_if_full fresh b)._gap_size 1 = (grow_if_full fresh b)._gap_size - 1 :=
    sz_sub_of_le g3 (by unfold SIZE_MOD; omega)
  have e4 : sz_sub (b._logical_size + 1) 1 = b._logical_size := by
    rw [sz_sub_of_le (by omega) (by unfold SIZE_MOD; omega)]; omega
  have e5 : sz_sub (b._cursor_index + 1) 1 = b._cursor_index := by
    rw [sz_sub_of_le (by omega) (by unfold SIZE_MOD; omega)]; omega
  have e6 : sz_add ((grow_if_full fresh b)._gap_size - 1) 1 =
      (grow_if_full fresh b)._gap_size := by
    rw [sz_add_of_lt (by unfold SIZE_MOD; omega)]; omega
  have hne : ¬ (b._cursor_index + 1 = 0) := by omega
  unfold delete_at_cursor insert_at_cursor
  simp only [e1, g2, e2, e3, if_neg hne, e4, e5, e6]
  refine ⟨trivial, trivial, trivial, trivial, ?_⟩
  intro i hi
  unfold at_ to_array_index
  simp only
  have h1 : ¬ (i ≥ b._logical_size) := by omega
  rw [if_neg h1, if_neg h1]
  by_cases h2 : i < b._cursor_index
  · have h3 : ¬ (i = b._cursor_index) := by omega
    rw [if_pos h2, store_apply, if_neg h3, g6 i h2, if_pos h2]
  · rw [if_neg h2, if_neg h2, sz_add_of_lt (by unfold SIZE_MOD; omega),
      sz_add_of_lt (by unfold SIZE_MOD; omega), store_apply]
    have h3 : ¬ (i + (grow_if_full fresh b)._gap_size = b._cursor_index) := by omega
    rw [if_neg h3, g7 i (by omega) hi]

/-- C19. For a buffer with capacity at least 1 that satisfies the data-model
invariants, `insert_at_cursor(v)` followed by `delete_at_cursor()` gives a
state with the same `size()`, the same `cursor_index()` and the same logical
sequence.  When the gap was not empty the capacity and the gap size are the
same too; when it was empty the insert has doubled the capacity and the gap
size is the old capacity. -/
theorem insert_then_delete_restores (fresh : Nat → value_type) (v : value_type)
    (b : GapBuffer) (hcap : 1 ≤ b._buffer_size) (hinv : Inv b) (halloc : Allocated b) :
    (delete_at_cursor (insert_at_cursor fresh v b)).size = b.size ∧
    (delete_at_cursor (insert_at_cursor fresh v b)).cursor_index = b.cursor_index ∧
    logical_sequence (delete_at_cursor (insert_at_cursor fresh v b)) = logical_sequence b ∧
    (b._gap_size ≠ 0 →
      (delete_at_cursor (insert_at_cursor fresh v b))._buffer_size = b._buffer_size ∧
      (delete_at_cursor (insert_at_cursor fresh v b))._gap_size = b._gap_size) ∧
    (b._gap_size = 0 →
      (delete_at_cursor (insert_at_cursor fresh v b))._buffer_size = 2 * b._buffer_size ∧
      (delete_at_cursor (insert_at_cursor fresh v b))._gap_size = b._buffer_size) := by
  obtain ⟨f1, f2, f3, f4, f5⟩ := insert_delete_fields fresh v b hcap hinv halloc
  refine ⟨f1, f2, ?_, ?_, ?_⟩
  · apply List.ext_getElem?
    intro n
    rw [logical_sequence_getElem?, logical_sequence_getElem?]
    unfold size
    rw [f1]
    by_cases h : n < b._logical_size
    · rw [if_pos h, if_pos h, f5 n h]
    · rw [if_neg h, if_neg h]
  · intro hne
    have hgf : grow_if_full fresh b = b := by
      unfold grow_if_full; rw [if_neg hne]
    rw [f3, f4, hgf]
    exact ⟨rfl, rfl⟩
  · intro hfull
    obtain ⟨_, r2, _, r4, _, _⟩ := reserve_double_fields fresh b hcap hinv halloc
    have hgf : grow_if_full fresh b = reserve fresh (sz_mul 2 b._buffer_size) b := by
      unfold grow_if_full; rw [if_pos hfull]
    rw [f3, f4, hgf]
    exact ⟨r2, r4⟩

/-- Witness of C19 on the buffer `"ab|c"`, whose gap is not empty. -/
theorem insert_then_delete_restores_witness :
    (1 ≤ sample_ab_c._buffer_size ∧ Inv sample_ab_c ∧ Allocated sample_ab_c ∧
      sample_ab_c._gap_size ≠ 0) ∧
    ((delete_at_cursor (insert_at_cursor blank 'X' sample_ab_c)).size = sample_ab_c.size ∧
      (delete_at_cursor (insert_at_cursor blank 'X' sample_ab_c)).cursor_index =
        sample_ab_c.cursor_index ∧
      logical_sequence (delete_at_cursor (insert_at_cursor blank 'X' sample_ab_c)) =
        logical_sequence sample_ab_c) ∧
    ((delete_at_cursor (insert_at_cursor blank 'X' sample_ab_c))._buffer_size =
        sample_ab_c._buffer_size ∧
      (delete_at_cursor (insert_at_cursor blank 'X' sample_ab_c))._gap_size =
        sample_ab_c._gap_size) :=
  ⟨⟨by decide, by decide, by decide, by decide⟩,
    ⟨(insert_then_delete_restores blank 'X' sample_ab_c (by decide) (by decide) (by decide)).1,
     (insert_then_delete_restores blank 'X' sample_ab_c (by decide) (by decide) (by decide)).2.1,
     (insert_then_delete_restores blank 'X' sample_ab_c (by decide) (by decide)
        (by decide)).2.2.1⟩,
    (insert_then_delete_restores blank 'X' sample_ab_c (by decide) (by decide)
      (by decide)).2.2.2.1 (by decide)⟩

/-- The test of `move_cursor` when capacity and new cursor position fit `int`:
`new_index` is the mathematical sum and the cast of `_buffer_size` is exact. -/
theorem move_cursor_guard_exact (b : GapBuffer) (delta : Int)
    (hcap : (b._buffer_size : Int) ≤ INT_MAX)
    (hlo : INT_MIN ≤ (b._cursor_index : Int) + delta)
    (hhi : (b._cursor_index : Int) + delta ≤ INT_MAX) :
    to_int (sz_of_int ((b._cursor_index : Int) + delta)) = (b._cursor_index : Int) + delta ∧
    to_int (b._buffer_size : Int) = (b._buffer_size : Int) := by
  unfold INT_MAX at hcap hhi
  unfold INT_MIN at hlo
  unfold to_int sz_of_int SIZE_MOD
  constructor
  · omega
  · omega

/-- C13, the claim as stated fails: `GapBuffer(1073741824, 'a')` has cursor
`2^30` and capacity `2^31`.  `move_cursor(0)` asks for the position
`cursor + 0`, which fits `int` and lies in `[0, capacity]`, and the call raises:
the test compares with `static_cast<int>(_buffer_size)`, which is `-2^31`. -/
theorem move_cursor_raises_inside_large_capacity :
    (INT_MIN ≤ (two_gib_buffer._cursor_index : Int) + 0 ∧
      (two_gib_buffer._cursor_index : Int) + 0 ≤ INT_MAX) ∧
    (call_move_cursor 0 two_gib_buffer).1 =
      .error "move_cursor: delta moves cursor out of bounds" ∧
    ¬ ((two_gib_buffer._cursor_index : Int) + 0 < 0 ∨
        (two_gib_buffer._cursor_index : Int) + 0 > (two_gib_buffer._buffer_size : Int)) :=
  by decide

/-- When capacity and new position fit `int` and the new position is outside
`[0, capacity]`, `move_cursor` throws. -/
theorem move_cursor_error_of (b : GapBuffer) (delta : Int)
    (hcap : (b._buffer_size : Int) ≤ INT_MAX)
    (hlo : INT_MIN ≤ (b._cursor_index : Int) + delta)
    (hhi : (b._cursor_index : Int) + delta ≤ INT_MAX)
    (h : (b._cursor_index : Int) + delta < 0 ∨
        (b._cursor_index : Int) + delta > (b._buffer_size : Int)) :
    move_cursor delta b = .error "move_cursor: delta moves cursor out of bounds" := by
  obtain ⟨h1, h2⟩ := move_cursor_guard_exact b delta hcap hlo hhi
  unfold move_cursor
  dsimp only
  rw [h1, h2, if_pos h]

/-- When capacity and new position fit `int` and the new position is inside
`[0, capacity]`, `move_cursor` returns. -/
theorem move_cursor_ok_of (b : GapBuffer) (delta : Int)
    (hcap : (b._buffer_size : Int) ≤ INT_MAX)
    (hlo : INT_MIN ≤ (b._cursor_index : Int) + delta)
    (hhi : (b._cursor_index : Int) + delta ≤ INT_MAX)
    (h : ¬ ((b._cursor_index : Int) + delta < 0 ∨
        (b._cursor_index : Int) + delta > (b._buffer_size : Int))) :
    ∃ b1, move_cursor delta b = .ok b1 := by
  obtain ⟨h1, h2⟩ := move_cursor_guard_exact b delta hcap hlo hhi
  unfold move_cursor
  dsimp only
  rw [h1, h2, if_neg h]
  exact ⟨_, rfl⟩

/-- C13, amended. For every buffer state whose capacity fits `int` and every
`delta` for which `cursor + delta` fits `int`, `move_cursor(delta)` raises the
out-of-range error exactly when `cursor + delta < 0` or
`cursor + delta > capacity`, and when it raises the whole buffer state is the
one before the call. -/
theorem move_cursor_raises_iff (b : GapBuffer) (delta : Int)
    (hcap : (b._buffer_size : Int) ≤ INT_MAX)
    (hlo : INT_MIN ≤ (b._cursor_index : Int) + delta)
    (hhi : (b._cursor_index : Int) + delta ≤ INT_MAX) :
    ((call_move_cursor delta b).1 = .error "move_cursor: delta moves cursor out of bounds" ↔
      ((b._cursor_index : Int) + delta < 0 ∨
        (b._cursor_index : Int) + delta > (b._buffer_size : Int))) ∧
    ((∃ msg, (call_move_cursor delta b).1 = .error msg) ↔
      ((b._cursor_index : Int) + delta < 0 ∨
        (b._cursor_index : Int) + delta > (b._buffer_size : Int))) ∧
    ((∃ msg, (call_move_cursor delta b).1 = .error msg) → (call_move_cursor delta b).2 = b) := by
  by_cases h : (b._cursor_index : Int) + delta < 0 ∨
      (b._cursor_index : Int) + delta > (b._buffer_size : Int)
  · have hm := move_cursor_error_of b delta hcap hlo hhi h
    unfold call_move_cursor
    rw [hm]
    exact ⟨⟨fun _ => h, fun _ => rfl⟩, ⟨fun _ => h, fun _ => ⟨_, rfl⟩⟩, fun _ => rfl⟩
  · obtain ⟨b1, hm⟩ := move_cursor_ok_of b delta hcap hlo hhi h
    unfold call_move_cursor
    rw [hm]
    refine ⟨⟨fun hh => ?_, fun hh => absurd hh h⟩, ⟨fun hh => ?_, fun hh => absurd hh h⟩,
      fun hh => ?_⟩
    · cases hh
    · obtain ⟨msg, hmsg⟩ := hh
      cases hmsg
    · obtain ⟨msg, hmsg⟩ := hh
      cases hmsg

/-- Witness of C13 on the buffer `"ab|c"`: `move_cursor(-3)` from cursor 2. -/
theorem move_cursor_raises_iff_witness :
    ((sample_ab_c._buffer_size : Int) ≤ INT_MAX ∧
      INT_MIN ≤ (sample_ab_c._cursor_index : Int) + (-3) ∧
      (sample_ab_c._cursor_index : Int) + (-3) ≤ INT_MAX) ∧
    (call_move_cursor (-3) sample_ab_c).1 =
      .error "move_cursor: delta moves cursor out of bounds" ∧
    (call_move_cursor (-3) sample_ab_c).2 = sample_ab_c :=
  ⟨⟨by decide, by decide, by decide⟩,
    (move_cursor_raises_iff sample_ab_c (-3) (by decide) (by decide) (by decide)).1.mpr
      (by decide),
    (move_cursor_raises_iff sample_ab_c (-3) (by decide) (by decide) (by decide)).2.2
      ⟨_, (move_cursor_raises_iff sample_ab_c (-3) (by decide) (by decide) (by decide)).1.mpr
        (by decide)⟩⟩

/-- Sizes after `insert_at_cursor`: size and cursor grow by one, the capacity
doubles exactly when the gap was empty, and the invariants hold again. -/
theorem insert_at_cursor_sizes (fresh : Nat → value_type) (v : value_type) (b : GapBuffer)
    (hcap : 1 ≤ b._buffer_size) (hinv : Inv b) (halloc : Allocated b) :
    (insert_at_cursor fresh v b)._logical_size = b._logical_size + 1 ∧
    (insert_at_cursor fresh v b)._cursor_index = b._cursor_index + 1 ∧
    (insert_at_cursor fresh v b)._buffer_size =
      (if b._gap_size = 0 then 2 * b._buffer_size else b._buffer_size) ∧
    Inv (insert_at_cursor fresh v b) := by
  obtain ⟨g1, g2, g3, g4, g5, _, _⟩ := grow_if_full_spec fresh b hcap hinv halloc
  have hinv0 := hinv
  obtain ⟨hg, hle, hc⟩ := hinv
  unfold SIZE_MOD at g5
  have e1 : sz_add (grow_if_full fresh b)._logical_size 1 = b._logical_size + 1 := by
    rw [g1, sz_add_of_lt (by unfold SIZE_MOD; omega)]
  have e2 : sz_add (grow_if_full fresh b)._cursor_index 1 = b._cursor_index + 1 := by
    rw [g2, sz_add_of_lt (by unfold SIZE_MOD; omega)]
  have e3 : sz_sub (grow_if_full fresh b)._gap_size 1 = (grow_if_full fresh b)._gap_size - 1 :=
    sz_sub_of_le g3 (by unfold SIZE_MOD; omega)
  have hbuf : (grow_if_full fresh b)._buffer_size =
      (if b._gap_size = 0 then 2 * b._buffer_size else b._buffer_size) := by
    by_cases hfull : b._gap_size = 0
    · obtain ⟨_, r2, _, _, _, _⟩ := reserve_double_fields fresh b hcap hinv0 halloc
      rw [if_pos hfull]
      unfold grow_if_full
      rw [if_pos hfull]
      exact r2
    · rw [if_neg hfull]
      unfold grow_if_full
      rw [if_neg hfull]
  refine ⟨?_, ?_, ?_, ?_⟩
  · unfold insert_at_cursor
    exact e1
  · unfold insert_at_cursor
    exact e2
  · unfold insert_at_cursor
    exact hbuf
  · unfold GapBuffer.Inv insert_at_cursor
    simp only [e1, e2, e3]
    omega

/-- Appending at the end: one more `insert_at_cursor` keeps `HoldsAtEnd`. -/
theorem holdsAtEnd_insert (fresh : Nat → value_type) (v : value_type) (b : GapBuffer)
    (xs : List value_type) (h : HoldsAtEnd b xs)
    (hlen : 2 * (xs.length + 1) ≤ PTRDIFF_MAX) :
    HoldsAtEnd (insert_at_cursor fresh v b) (xs ++ [v]) := by
  obtain ⟨hinv, hcur, hsz, hseq, hten, hcapb, k, hk, hk1⟩ := h
  unfold kDefaultSize at hten hcapb hk hk1
  have hP := hlen
  unfold PTRDIFF_MAX at hP
  have hcap : 1 ≤ b._buffer_size := by omega
  have halloc : Allocated b := by
    unfold Allocated PTRDIFF_MAX; omega
  obtain ⟨s1, s2, s3, s4⟩ := insert_at_cursor_sizes fresh v b hcap hinv halloc
  have hat := at_insert_at_cursor fresh v b hcap hinv halloc
  obtain ⟨hg, hle, hc⟩ := hinv
  have hlenapp : (xs ++ [v]).length = xs.length + 1 := by simp
  refine ⟨s4, by omega, by omega, ?_, ?_, ?_, ?_⟩
  · have hstep : logical_sequence (insert_at_cursor fresh v b) =
        logical_sequence b ++ [Except.ok v] := by
      apply List.ext_getElem?
      intro n
      rw [logical_sequence_getElem?]
      unfold size
      rw [s1]
      by_cases h1 : n < b._logical_size
      · rw [List.getElem?_append_left (by rw [logical_sequence_length]; exact h1),
          logical_sequence_getElem?]
        unfold size
        rw [if_pos (by omega), if_pos h1, hat n (by omega), if_pos (by omega)]
      · by_cases h2 : n = b._logical_size
        · rw [List.getElem?_append_right (by rw [logical_sequence_length]; unfold size; omega),
            logical_sequence_length]
          unfold size
          rw [h2, Nat.sub_self, if_pos (by omega), hat _ (by omega), if_neg (by omega),
            if_pos hcur.symm]
          rfl
        · rw [if_neg (by omega), List.getElem?_eq_none]
          rw [List.length_append, logical_sequence_length]
          unfold size
          simp only [List.length_singleton]
          omega
    rw [hstep, hseq]
    simp
  · unfold kDefaultSize
    rw [s3]
    by_cases hfull : b._gap_size = 0
    · rw [if_pos hfull]; omega
    · rw [if_neg hfull]; omega
  · unfold kDefaultSize
    rw [s3, hlenapp]
    by_cases hfull : b._gap_size = 0
    · rw [if_pos hfull]; omega
    · rw [if_neg hfull]; omega
  · unfold kDefaultSize
    rw [s3, hlenapp]
    by_cases hfull : b._gap_size = 0
    · rw [if_pos hfull]
      refine ⟨k + 1, ?_, fun _ => by omega⟩
      rw [hk, pow_succ]; ring
    · rw [if_neg hfull]
      refine ⟨k, hk, fun h10 => ?_⟩
      rcases Nat.eq_zero_or_pos k with hk0 | hkpos
      · subst hk0
        simp at hk
        omega
      · exact hkpos

/-- Repeated insertion keeps `HoldsAtEnd`. -/
theorem holdsAtEnd_insert_each (fresh : Nat → Nat → value_type) :
    ∀ (vs : List value_type) (k : Nat) (b : GapBuffer) (xs : List value_type),
      HoldsAtEnd b xs → 2 * (xs.length + vs.length) ≤ PTRDIFF_MAX →
      HoldsAtEnd (insert_each fresh k vs b) (xs ++ vs) := by
  intro vs
  induction vs with
  | nil =>
    intro k b xs h _
    simpa [insert_each] using h
  | cons v vs ih =>
    intro k b xs h hlen
    have hl : (v :: vs).length = vs.length + 1 := rfl
    rw [hl] at hlen
    have h1 := holdsAtEnd_insert (fresh k) v b xs h (by omega)
    have h2 := ih (k + 1) (insert_at_cursor (fresh k) v b) (xs ++ [v]) h1
      (by rw [List.length_append, List.length_singleton]; omega)
    rw [List.append_assoc] at h2
    exact h2

/-- The empty buffer `GapBuffer()` holds the empty list. -/
theorem holdsAtEnd_ctor_default (fresh : Nat → value_type) :
    HoldsAtEnd (ctor_default fresh) [] := by
  refine ⟨⟨rfl, Nat.zero_le _, Nat.le_refl _⟩, rfl, rfl, rfl, Nat.le_refl _, Or.inl rfl, 0, rfl, ?_⟩
  intro h
  exact absurd h (by decide)

/-- C11. For every list `vs` of values (short enough for twice its length to be
an array size), starting from `GapBuffer()` and calling `insert_at_cursor` on
each element in order, with no `reserve` call in between, every call returns
and the final state has `size() == |vs|`, `cursor_index() == |vs|`,
`at(i) == vs[i]` for every `i < |vs|`, capacity at least `|vs|`, and a capacity
that is the default capacity doubled `k` times with `k ≥ 1` when `|vs| > 10`. -/
theorem insert_each_from_empty (fresh0 : Nat → value_type) (fresh : Nat → Nat → value_type)
    (vs : List value_type) (hlen : 2 * vs.length ≤ PTRDIFF_MAX) :
    (insert_each fresh 0 vs (ctor_default fresh0)).size = vs.length ∧
    (insert_each fresh 0 vs (ctor_default fresh0)).cursor_index = vs.length ∧
    logical_sequence (insert_each fresh 0 vs (ctor_default fresh0)) = vs.map Except.ok ∧
    (∀ i (hi : i < vs.length),
      (insert_each fresh 0 vs (ctor_default fresh0)).at_ i = Except.ok vs[i]) ∧
    vs.length ≤ (insert_each fresh 0 vs (ctor_default fresh0))._buffer_size ∧
    ∃ k, (insert_each fresh 0 vs (ctor_default fresh0))._buffer_size = kDefaultSize * 2 ^ k ∧
      (10 < vs.length → 1 ≤ k) := by
  have h := holdsAtEnd_insert_each fresh vs 0 (ctor_default fresh0) []
    (holdsAtEnd_ctor_default fresh0) (by simpa using hlen)
  rw [List.nil_append] at h
  obtain ⟨hinv, hcur, hsz, hseq, _, _, k, hk, hk1⟩ := h
  obtain ⟨_, hle, _⟩ := hinv
  refine ⟨hsz, by unfold cursor_index; rw [hcur, hsz], hseq, ?_, by omega, k, hk, hk1⟩
  intro i hi
  have h1 := logical_sequence_getElem? (insert_each fresh 0 vs (ctor_default fresh0)) i
  unfold size at h1
  rw [hseq, hsz, if_pos hi, List.getElem?_map, List.getElem?_eq_getElem hi] at h1
  simp only [Option.map_some', Option.some.injEq] at h1
  exact h1.symm

/-- Witness of C11: eleven values inserted into `GapBuffer()`. -/
theorem insert_each_from_empty_witness :
    2 * eleven_values.length ≤ PTRDIFF_MAX ∧
    ((insert_each (fun _ => blank) 0 eleven_values (ctor_default blank)).size =
        eleven_values.length ∧
      (insert_each (fun _ => blank) 0 eleven_values (ctor_default blank)).cursor_index =
        eleven_values.length ∧
      logical_sequence (insert_each (fun _ => blank) 0 eleven_values (ctor_default blank)) =
        eleven_values.map Except.ok ∧
      (∀ i (hi : i < eleven_values.length),
        (insert_each (fun _ => blank) 0 eleven_values (ctor_default blank)).at_ i =
          Except.ok eleven_values[i]) ∧
      eleven_values.length ≤
        (insert_each (fun _ => blank) 0 eleven_values (ctor_default blank))._buffer_size ∧
      ∃ k, (insert_each (fun _ => blank) 0 eleven_values (ctor_default blank))._buffer_size =
          kDefaultSize * 2 ^ k ∧
        (10 < eleven_values.length → 1 ≤ k)) :=
  ⟨by decide, insert_each_from_empty blank (fun _ => blank) eleven_values (by decide)⟩

end GapBufferModel
